import Mathlib

/-!
# Verification of the train-chat application's core

Shallow embedding of the motion-classification hook
(`useTrainDetection`, `src/unnamed/part_001`) and of the session
coordinator (server portion of `src/client/src/screens/ChatScreen.tsx`),
with theorems settling the frozen claims about them.

Conventions of the embedding:

* JavaScript numbers are modelled by `JSNum`: an exact rational, `NaN`,
  or a signed infinity.  The only operations the embedded code performs
  that can leave the finite range are the division `distance / timeDiff`
  (where `0 / 0` is `NaN` and `d / 0` for `d ≠ 0` is a signed infinity)
  and the comparisons, which in JavaScript are `false` whenever an
  operand is `NaN`.
* `calculateDistance` (part_001 lines 211-221) is the haversine formula
  over floating-point trigonometry; its values have no exact rational
  form, and no claim depends on its internals — every claim quantifies
  over the speeds it produces.  It is therefore abstracted as an
  explicit distance oracle `d : ℚ → ℚ → ℚ → ℚ → ℚ` passed to the step
  function; concrete theorems instantiate the oracle.
* `Math.random()` draws are supplied as an explicit per-fix rational
  `rand` (the code consumes at most one draw per fix, in the artifact
  clamp at line 324).
* React state updates (`setX`) are modelled as taking effect before the
  next fix is processed, which is the reading under which the code's
  own comments describe it; refs (`previousTrainStatusRef`,
  `previousLocationRef`, `lastUpdateRef`) update synchronously exactly
  as in the source.
-/

namespace TrainChat

/-- A JavaScript number as this code can produce it: an exact rational,
`NaN`, or a signed infinity. -/
inductive JSNum where
  | nan : JSNum
  | inf : JSNum
  | ninf : JSNum
  | num : ℚ → JSNum
deriving DecidableEq, Repr

/-- JavaScript `<` against a finite literal: `false` on `NaN`,
`false` on `+∞`, `true` on `-∞`. -/
def JSNum.ltQ : JSNum → ℚ → Bool
  | .nan, _ => false
  | .inf, _ => false
  | .ninf, _ => true
  | .num a, q => a < q

/-- JavaScript `>` against a finite literal: `false` on `NaN`,
`true` on `+∞`, `false` on `-∞`. -/
def JSNum.gtQ : JSNum → ℚ → Bool
  | .nan, _ => false
  | .inf, _ => true
  | .ninf, _ => false
  | .num a, q => q < a

/-- JavaScript `>=` against a finite literal: `false` on `NaN`. -/
def JSNum.geQ : JSNum → ℚ → Bool
  | .nan, _ => false
  | .inf, _ => true
  | .ninf, _ => false
  | .num a, q => q ≤ a

/-- JavaScript `<=` against a finite literal: `false` on `NaN`. -/
def JSNum.leQ : JSNum → ℚ → Bool
  | .nan, _ => false
  | .inf, _ => false
  | .ninf, _ => true
  | .num a, q => a ≤ q

/-- `(distance / timeDiff) * 3.6` (part_001 line 319) under JavaScript
division: `0 / 0 = NaN`, `d / 0 = ±∞` for `d ≠ 0`, finite otherwise. -/
def jsRawSpeed (distance timeDiff : ℚ) : JSNum :=
  if timeDiff = 0 then
    if distance = 0 then .nan
    else if 0 < distance then .inf
    else .ninf
  else .num (distance / timeDiff * 3.6)

/-- The speed computation of the success callback, part_001 lines
313-355.  `hasPrev` is the truthiness of
`previousLocationRef.current && lastUpdateRef.current`; `reported` is
`position.coords.speed` (m/s, `none` when absent, with JavaScript
treating a reported `0` as falsy); `rand` is the `Math.random()` draw
consumed by the artifact clamp. -/
def computeSpeed (hasPrev : Bool) (distance timeDiff : ℚ)
    (reported : Option ℚ) (rand : ℚ) : JSNum :=
  if hasPrev then
    let rawSpeed := jsRawSpeed distance timeDiff
    if rawSpeed.gtQ 200 then
      -- 異常に高速な場合は電車の平均速度に調整 (line 324)
      .num (rand * 40 + 40)
    else if rawSpeed.ltQ 5 && decide (timeDiff > 2) then
      -- 長時間停止していた場合は低速維持 (line 331)
      rawSpeed
    else
      rawSpeed
  else
    match reported with
    | some s => if s = 0 then .num 0 else .num (min (s * 3.6) 100)
    | none => .num 0

/-- One entry of the static line table (part_001 lines 191-195). -/
structure TrainLine where
  name : String
  lat : ℚ
  lng : ℚ
  radius : ℚ
deriving DecidableEq, Repr

/-- The static table inside `detectTrainLine` (part_001 lines 191-195). -/
def trainLines : List TrainLine :=
  [⟨"JR山手線", 35.6762, 139.6503, 0.05⟩,
   ⟨"JR中央線", 35.6581, 139.7414, 0.03⟩,
   ⟨"JR京浜東北線", 35.7281, 139.7186, 0.03⟩]

/-- The loop body's test (part_001 lines 198-202):
`Math.sqrt((lat-l.lat)² + (lng-l.lng)²) < l.radius`.  Since both sides
are non-negative reals and every radius in the table is positive,
`sqrt x < r` is equivalent to `x < r²`; the embedding uses the squared
form so the definition stays within exact rational arithmetic
(`withinRadius_iff_sqrt` below proves the equivalence). -/
def withinRadius (lat lng : ℚ) (l : TrainLine) : Bool :=
  (lat - l.lat) ^ 2 + (lng - l.lng) ^ 2 < l.radius ^ 2

/-- The `for` loop of `detectTrainLine` (part_001 lines 197-205):
return the first matching entry's name, else fall through. -/
def findLine (lat lng : ℚ) : List TrainLine → Option String
  | [] => none
  | l :: rest => if withinRadius lat lng l then some l.name else findLine lat lng rest

/-- `detectTrainLine` (part_001 lines 190-208): first table entry whose
planar distance in degrees from the point is strictly below its radius,
`null` when none matches.  A pure function of its arguments. -/
def detectTrainLine (lat lng : ℚ) : Option String :=
  findLine lat lng trainLines

/-- The Line Resolver as the spec words it (§4.2): "Returns the first
table entry whose planar distance (degrees) from the point is below
`radius`; returns `null` if none match."  Stated with `List.find?` to
compare against the loop-based source function. -/
def resolveSpec (lat lng : ℚ) : Option String :=
  (trainLines.find? (fun l => withinRadius lat lng l)).map TrainLine.name

/-- One position fix as the success callback consumes it: coordinates,
the optional self-reported speed in m/s, the timestamp (ms), and the
`Math.random()` draw available to the artifact clamp on this fix. -/
structure Fix where
  lat : ℚ
  lng : ℚ
  reportedSpeed : Option ℚ
  timestamp : ℚ
  rand : ℚ
deriving DecidableEq, Repr

/-- The classifier state carried across fixes by the hook:
`isOnTrain` / `currentLine` / `speed` / `lowSpeedCount` React state and
the `previousTrainStatusRef` / `previousLocationRef` / `lastUpdateRef`
refs (part_001 lines 224-239). -/
structure DetectionState where
  isOnTrain : Bool
  currentLine : Option String
  speed : JSNum
  lowSpeedCount : Nat
  prevTrainStatus : Bool
  prevLocation : Option (ℚ × ℚ)
  lastUpdate : ℚ
deriving DecidableEq, Repr

/-- The hook's initial state: all flags clear, `lastUpdateRef`
initialised to `Date.now()` (a nonzero wall-clock value `t0`). -/
def initState (t0 : ℚ) : DetectionState :=
  { isOnTrain := false
    currentLine := none
    speed := .num 0
    lowSpeedCount := 0
    prevTrainStatus := false
    prevLocation := none
    lastUpdate := t0 }

/-- 電車判定 (part_001 lines 359-381): in development mode the
conjunction `hasMultipleUpdates && isTrainSpeed && hasTrainLine`
(lines 365-369); in production mode only
`calculatedSpeed > 20 && calculatedSpeed < 100` (line 380). -/
def isTrainDetected (isDev : Bool) (st : DetectionState) (sp : JSNum)
    (lat lng : ℚ) : Bool :=
  if isDev then
    st.prevLocation.isSome && sp.geQ 30 && sp.leQ 120
      && (detectTrainLine lat lng).isSome
  else
    sp.gtQ 20 && sp.ltQ 100

/-- 降車検知ロジック (part_001 lines 383-429): the hysteresis branch.
Given the previous-fix train status (`previousTrainStatusRef`), the
new `isTrainDetected` verdict, the computed speed and the resolved
line of the new fix, produce the new `(isOnTrain, currentLine,
lowSpeedCount)` and whether `onTrainExit` is scheduled.  The guard at
line 398 compares `lowSpeedCount >= 2` against the value *before* this
fix's increment. -/
def exitDecision (st : DetectionState) (detected : Bool) (sp : JSNum)
    (resolved : Option String) : Bool × Option String × Nat × Bool :=
  if st.prevTrainStatus && !detected then
    if sp.ltQ 15 then
      if st.lowSpeedCount ≥ 2 then
        -- 降車確定 (lines 399-412): clear state, fire the callback
        (false, none, 0, true)
      else
        (st.isOnTrain, st.currentLine, st.lowSpeedCount + 1, false)
    else
      -- 速度が上がった場合はカウントリセット (line 416)
      (st.isOnTrain, st.currentLine, 0, false)
  else
    -- 通常の電車判定 (lines 419-428): setCurrentLine(line || 'JR山手線')
    (detected,
     (if detected then some (resolved.getD "JR山手線") else none),
     0, false)

/-- One invocation of the success callback (part_001 lines 301-436) on
a fresh fix, given the distance oracle `d` standing for
`calculateDistance` (previous lat, previous lng, new lat, new lng, in
that order).  Returns the updated state and whether this fix scheduled
the `onTrainExit` callback (line 405-409). -/
def step (isDev : Bool) (d : ℚ → ℚ → ℚ → ℚ → ℚ)
    (st : DetectionState) (f : Fix) : DetectionState × Bool :=
  -- 速度計算 (lines 313-355)
  let hasPrev := st.prevLocation.isSome && !(decide (st.lastUpdate = 0))
  let timeDiff := (f.timestamp - st.lastUpdate) / 1000
  let distance := match st.prevLocation with
    | some p => d p.1 p.2 f.lat f.lng
    | none => 0
  let sp := computeSpeed hasPrev distance timeDiff f.reportedSpeed f.rand
  -- 電車判定 (lines 359-381)
  let detected := isTrainDetected isDev st sp f.lat f.lng
  let result := exitDecision st detected sp (detectTrainLine f.lat f.lng)
  -- 前回の電車状態を記録 (lines 431-435)
  ({ isOnTrain := result.1
     currentLine := result.2.1
     speed := sp
     lowSpeedCount := result.2.2.1
     prevTrainStatus := detected
     prevLocation := some (f.lat, f.lng)
     lastUpdate := f.timestamp }, result.2.2.2)

/-- Run the classifier over a list of fixes, collecting after each fix
the resulting state and whether that fix fired `onTrainExit`. -/
def runTrace (isDev : Bool) (d : ℚ → ℚ → ℚ → ℚ → ℚ)
    (st : DetectionState) : List Fix → List (DetectionState × Bool)
  | [] => []
  | f :: fs =>
    let r := step isDev d st f
    r :: runTrace isDev d r.1 fs

/-- The states the hook exposes after each fix. -/
def runStates (isDev : Bool) (d : ℚ → ℚ → ℚ → ℚ → ℚ)
    (st : DetectionState) (fs : List Fix) : List DetectionState :=
  (runTrace isDev d st fs).map Prod.fst

/-- The dependency tuple of the boarding effect in
`TrainDetectionScreen` (lines 83-87): `[trainStatus.isOnTrain,
trainStatus.trainLine]`. -/
def depsOf (st : DetectionState) : Bool × Option String :=
  (st.isOnTrain, st.currentLine)

/-- The boarding triggers of a state sequence: React re-runs the effect
after a render exactly when its dependency tuple changed, and the
effect body joins the chat room when `isOnTrain` holds and a line is
set.  `prev` is the dependency tuple of the preceding render. -/
def triggersAux (prev : Bool × Option String) :
    List DetectionState → List Bool
  | [] => []
  | s :: rest =>
    (decide (depsOf s ≠ prev) && s.isOnTrain && s.currentLine.isSome)
      :: triggersAux (depsOf s) rest

/-! ## Session Coordinator

The server portion of `src/client/src/screens/ChatScreen.tsx` (lines
957-1176) defines the data model (`User`, `Room`, `Message`, the
`users` and `rooms` maps) and the utility functions `createRoom`,
`deleteRoom`, `broadcastToRoom`, `getRoomUsers` — but its
`io.on('connection')` block is the simplified test version (line 1131:
"以下、既存のイベントハンドラーを簡略化してテスト"): the actual
`joinRoom` / `leaveRoom` / `sendMessage` / `disconnect` handlers are
not in the source.  Those four operations are modelled from the spec
(§4.3), built on top of the source's utility functions, and each such
definition says so in its doc comment.

JavaScript `Map`s are modelled as association lists in insertion
order: `get` finds the first matching key, `set` replaces the first
occurrence in place or appends, `delete` removes the key's entries
(keys are unique in a `Map`, so removing all occurrences agrees with
removing the entry), `forEach` iterates in list order. -/

/-- `Map.get`. -/
def alGet {α : Type} (l : List (String × α)) (k : String) : Option α :=
  (l.find? (fun p => p.1 = k)).map Prod.snd

/-- `Map.set`: replace the first occurrence in place, else append. -/
def alSet {α : Type} : List (String × α) → String → α → List (String × α)
  | [], k, v => [(k, v)]
  | p :: rest, k, v =>
    if p.1 = k then (k, v) :: rest else p :: alSet rest k v

/-- `Map.delete`: remove the key's entries. -/
def alErase {α : Type} (l : List (String × α)) (k : String) :
    List (String × α) :=
  l.filter (fun p => p.1 ≠ k)

/-- `User` (ChatScreen.tsx lines 996-1002).  Timestamps are rationals
standing for `Date` values. -/
structure SUser where
  id : String
  socketId : String
  nickname : String
  roomId : Option String
  joinedAt : ℚ
deriving DecidableEq, Repr

/-- `Message` (ChatScreen.tsx lines 1012-1019). -/
structure SMessage where
  id : String
  roomId : String
  userId : String
  nickname : String
  text : String
  timestamp : ℚ
deriving DecidableEq, Repr

/-- `Room` (ChatScreen.tsx lines 1004-1010); `users` is a `Map` keyed
by user id. -/
structure SRoom where
  id : String
  trainLine : String
  users : List (String × SUser)
  messages : List SMessage
  createdAt : ℚ
deriving DecidableEq, Repr

/-- The `rooms` map (ChatScreen.tsx line 1041). -/
abbrev Rooms := List (String × SRoom)

/-- A payload the server emits to a socket. -/
inductive Payload where
  | msg : SMessage → Payload
  | userJoined : String → String → Payload
  | userLeft : String → String → Payload
  | roomUpdate : List (String × String) → Payload
deriving DecidableEq, Repr

/-- One `io.to(socketId).emit(event, data)` call. -/
structure Emit where
  sid : String
  event : String
  data : Payload
deriving DecidableEq, Repr

/-- `createRoom` (ChatScreen.tsx lines 1080-1091): build a fresh empty
room, `rooms.set` it, and return it alongside the updated map. -/
def createRoom (rooms : Rooms) (roomId trainLine : String) (now : ℚ) :
    SRoom × Rooms :=
  let room : SRoom :=
    { id := roomId, trainLine := trainLine, users := [], messages := []
      createdAt := now }
  (room, alSet rooms roomId room)

/-- `deleteRoom` (ChatScreen.tsx lines 1093-1099): remove the room only
when it exists and its `users` map is empty; otherwise do nothing. -/
def deleteRoom (rooms : Rooms) (roomId : String) : Rooms :=
  match alGet rooms roomId with
  | some room => if room.users.length = 0 then alErase rooms roomId else rooms
  | none => rooms

/-- The `forEach` body of `broadcastToRoom`: emit to every member whose
`socketId` differs from the excluded one (`!==` against `undefined`
when no exclusion is given is always true). -/
def bcastList (users : List (String × SUser)) (event : String)
    (data : Payload) (excludeSocketId : Option String) : List Emit :=
  users.filterMap (fun p =>
    if excludeSocketId = some p.2.socketId then none
    else some ⟨p.2.socketId, event, data⟩)

/-- `broadcastToRoom` (ChatScreen.tsx lines 1101-1110): look the room
up, return silently when absent, else emit to each member except the
excluded socket. -/
def broadcastToRoom (rooms : Rooms) (roomId event : String)
    (data : Payload) (excludeSocketId : Option String) : List Emit :=
  match alGet rooms roomId with
  | none => []
  | some room => bcastList room.users event data excludeSocketId

/-- `getRoomUsers` (ChatScreen.tsx lines 1112-1120). -/
def getRoomUsers (rooms : Rooms) (roomId : String) :
    List (String × String) :=
  match alGet rooms roomId with
  | none => []
  | some room => room.users.map (fun p => (p.2.id, p.2.nickname))

/-- The Coordinator's state: the `rooms` map and the `users` map keyed
by connection (socket) id. -/
structure ServerState where
  rooms : Rooms
  users : List (String × SUser)
deriving DecidableEq, Repr

/-- Modelled from the spec: the `leave(userId, roomId)` handler is
absent from the source (only the simplified test connection handler is
there).  Per §4.3: "remove the Member if present; broadcast
`UserLeft{userId, nickname}` to remaining members; if the Room's member
set becomes empty, delete the Room immediately (no grace period).
No-op, not an error, if the user was not a member."  Built on the
source's `deleteRoom` and `broadcastToRoom`. -/
def leaveEffect (st : ServerState) (userId roomId : String) :
    ServerState × List Emit :=
  match alGet st.rooms roomId with
  | none => (st, [])
  | some room =>
    match alGet room.users userId with
    | none => (st, [])
    | some member =>
      let room' := { room with users := alErase room.users userId }
      let rooms1 := alSet st.rooms roomId room'
      let emits := broadcastToRoom rooms1 roomId "userLeft"
        (.userLeft userId member.nickname) none
      let rooms2 := deleteRoom rooms1 roomId
      ({ rooms := rooms2
         users := alSet st.users member.socketId
           { member with roomId := none } }, emits)

/-- Modelled from the spec: the `join` handler is absent from the
source.  Per §4.3: "if `roomId` unknown, create the Room lazily with
`lineLabel`.  If `userId` is already a Member of a different room,
remove them from that room first (triggering its leave side effects)
before adding to the new one.  Add/overwrite the Member record keyed by
`userId`.  Broadcast `UserJoined{userId, nickname}` to all other
current members of the room, and push a `RoomUpdate{members}` snapshot
to all members including the joiner."  Built on the source's
`createRoom`, `broadcastToRoom` and `getRoomUsers`. -/
def joinCore (st : ServerState)
    (userId connId roomId lineLabel nickname : String) (now : ℚ) :
    ServerState × List Emit :=
  let opened := match alGet st.rooms roomId with
    | some room => (room, st.rooms)
    | none => createRoom st.rooms roomId lineLabel now
  let member : SUser :=
    { id := userId, socketId := connId, nickname := nickname
      roomId := some roomId, joinedAt := now }
  let room' := { opened.1 with users := alSet opened.1.users userId member }
  let rooms2 := alSet opened.2 roomId room'
  ({ rooms := rooms2, users := alSet st.users connId member },
   broadcastToRoom rooms2 roomId "userJoined"
       (.userJoined userId nickname) (some connId)
     ++ broadcastToRoom rooms2 roomId "roomUpdate"
          (.roomUpdate (getRoomUsers rooms2 roomId)) none)

/-- Modelled from the spec (§4.3): the `join` operation in full —
first the implicit leave of any other room the user is still a member
of ("If `userId` is already a Member of a different room, remove them
from that room first"), then `joinCore`. -/
def joinOp (st : ServerState)
    (userId connId roomId lineLabel nickname : String) (now : ℚ) :
    ServerState × List Emit :=
  let prior := (st.rooms.find? (fun p =>
    decide (p.1 ≠ roomId) && (alGet p.2.users userId).isSome)).map Prod.fst
  let pre := match prior with
    | some r => leaveEffect st userId r
    | none => (st, [])
  let r := joinCore pre.1 userId connId roomId lineLabel nickname now
  (r.1, pre.2 ++ r.2)

/-- Modelled from the spec: the `sendMessage` handler is absent from
the source.  Per §4.3: "fails with `NotAMember` if `userId` is not
currently in `roomId`.  Otherwise constructs a Message with a
Coordinator-assigned id and timestamp and broadcasts
`ReceiveMessage{message}` to every member of the room except the
sender."  `msgId` and `now` are the Coordinator-assigned id and
timestamp.  Built on the source's `broadcastToRoom`. -/
def sendMessageOp (st : ServerState) (userId roomId text : String)
    (msgId : String) (now : ℚ) : Except String (ServerState × List Emit) :=
  match alGet st.rooms roomId with
  | none => .error "NotAMember"
  | some room =>
    match alGet room.users userId with
    | none => .error "NotAMember"
    | some member =>
      let msg : SMessage :=
        { id := msgId, roomId := roomId, userId := userId
          nickname := member.nickname, text := text, timestamp := now }
      let room' := { room with messages := room.messages ++ [msg] }
      let rooms1 := alSet st.rooms roomId room'
      .ok ({ st with rooms := rooms1 },
        broadcastToRoom rooms1 roomId "receiveMessage" (.msg msg)
          (some member.socketId))

/-- Modelled from the spec: the `disconnect` handler in the source is
the simplified test version (lines 1132-1134, a log only).  Per §4.3:
"on transport-level disconnection, resolve to the owning
`userId`/`roomId` (if any) and perform the same effect as `leave`",
after which the connection's entry leaves the `users` map. -/
def disconnectOp (st : ServerState) (connId : String) :
    ServerState × List Emit :=
  match alGet st.users connId with
  | none => (st, [])
  | some u =>
    let r := match u.roomId with
      | some rid => leaveEffect st u.id rid
      | none => (st, [])
    ({ r.1 with users := alErase r.1.users connId }, r.2)

/-- A Coordinator operation, as delivered by a client connection. -/
inductive Op where
  | join (userId connId roomId lineLabel nickname : String) (now : ℚ)
  | leave (userId roomId : String)
  | send (userId roomId text msgId : String) (now : ℚ)
  | disconnect (connId : String)
deriving DecidableEq, Repr

/-- Dispatch one operation; a failed `sendMessage` drops the operation
and leaves the state untouched (spec §7). -/
def applyOp (st : ServerState) : Op → ServerState × List Emit
  | .join userId connId roomId lineLabel nickname now =>
    joinOp st userId connId roomId lineLabel nickname now
  | .leave userId roomId => leaveEffect st userId roomId
  | .send userId roomId text msgId now =>
    match sendMessageOp st userId roomId text msgId now with
    | .ok r => r
    | .error _ => (st, [])
  | .disconnect connId => disconnectOp st connId

/-- The empty-room invariant of the spec (§3, Room): "a room with zero
members must not be observable by subsequent operations". -/
def noEmptyRooms (st : ServerState) : Prop :=
  ∀ p ∈ st.rooms, p.2.users ≠ []

instance (st : ServerState) : Decidable (noEmptyRooms st) :=
  inferInstanceAs (Decidable (∀ p ∈ st.rooms, p.2.users ≠ []))

/-! ## Concrete scenarios used by the claims -/

/-- The structural invariant behind the exit hysteresis: because
`previousTrainStatusRef.current` is overwritten with `isTrainDetected`
on *every* fix (part_001 line 432) — including fixes handled by the
降車検知 branch, where `isTrainDetected` is necessarily `false` — the
low-speed counter can be incremented at most once before the branch
becomes unreachable. -/
def exitCounterInv (st : DetectionState) : Prop :=
  st.lowSpeedCount ≤ 1 ∧ (st.prevTrainStatus = true → st.lowSpeedCount = 0)

/-- Distance oracle (standing for `calculateDistance`) realising the
spec §8 speed sequence [10, 40, 50, 45, 8, 8, 8] km/h over
`specSpeedFixes`: keyed by the target longitude, it returns the metre
distances that make `(distance / 1 s) * 3.6` come out to 40, 50, 45
and 8 km/h respectively. -/
def specSpeedDist : ℚ → ℚ → ℚ → ℚ → ℚ := fun _ _ _ lng =>
  if lng = 139.6504 then 100 / 9
  else if lng = 139.6505 then 125 / 9
  else if lng = 139.6506 then 25 / 2
  else 20 / 9

/-- Seven fixes, one second apart, all within the JR山手線 entry's
radius; the first fix has a self-reported speed of 25/9 m/s = 10 km/h,
the rest get their speeds from `specSpeedDist`, producing the spec §8
sequence [10, 40, 50, 45, 8, 8, 8] km/h. -/
def specSpeedFixes : List Fix :=
  [⟨35.6762, 139.6503, some (25 / 9), 1000, 0⟩,
   ⟨35.6762, 139.6504, none, 2000, 0⟩,
   ⟨35.6762, 139.6505, none, 3000, 0⟩,
   ⟨35.6762, 139.6506, none, 4000, 0⟩,
   ⟨35.6762, 139.6507, none, 5000, 0⟩,
   ⟨35.6762, 139.6508, none, 6000, 0⟩,
   ⟨35.6762, 139.6509, none, 7000, 0⟩]

/-- Constant distance oracle: 50/3 m per second-spaced fix pair, i.e.
a computed speed of 60 km/h for every fix after the first. -/
def steadySpeedDist : ℚ → ℚ → ℚ → ℚ → ℚ := fun _ _ _ _ => 50 / 3

/-- Three fixes, one second apart, at 60 km/h under `steadySpeedDist`:
the first two at the JR山手線 reference point, the third at the
JR中央線 reference point — a continuous in-vehicle run (fixes 2-3)
whose resolved line changes mid-run. -/
def lineChangeFixes : List Fix :=
  [⟨35.6762, 139.6503, none, 1000, 0⟩,
   ⟨35.6762, 139.6503, none, 2000, 0⟩,
   ⟨35.6581, 139.7414, none, 3000, 0⟩]

/-! ## Line Resolver theorems -/

/-- The source's squared-comparison form of the radius test agrees with
the literal `Math.sqrt` form for the positive radii of the table. -/
theorem withinRadius_iff_sqrt (lat lng : ℚ) (l : TrainLine)
    (hr : 0 < l.radius) :
    withinRadius lat lng l = true ↔
      Real.sqrt (((lat : ℝ) - l.lat) ^ 2 + ((lng : ℝ) - l.lng) ^ 2)
        < (l.radius : ℝ) := by
  have hr' : (0 : ℝ) < (l.radius : ℝ) := by exact_mod_cast hr
  rw [withinRadius, decide_eq_true_eq, Real.sqrt_lt' hr']
  constructor <;> intro h <;> exact_mod_cast h

/-- The resolver loop returns exactly the name of the first entry
matching the radius test. -/
theorem findLine_eq_find? (lat lng : ℚ) (ls : List TrainLine) :
    findLine lat lng ls
      = (ls.find? (fun l => withinRadius lat lng l)).map TrainLine.name := by
  induction ls with
  | nil => rfl
  | cons l rest ih =>
    cases h : withinRadius lat lng l <;>
      simp [findLine, List.find?_cons, h, ih]

/-- C6: the Line Resolver is a pure, deterministic function of the
coordinates returning the label of the first static-table entry whose
planar distance in degrees from the point is strictly below that
entry's radius, and `none` when no entry matches — it coincides with
the spec-side `List.find?` formulation on every input (purity and
determinism are inherent: `detectTrainLine` is a function of its two
arguments and mutates nothing). -/
theorem claim6_resolver_refines_spec (lat lng : ℚ) :
    detectTrainLine lat lng = resolveSpec lat lng :=
  findLine_eq_find? lat lng trainLines

/-! ## Classifier theorems -/

/-- The hysteresis branch can never fire the exit callback from a
state satisfying `exitCounterInv`, and it re-establishes the
invariant: the counter stays at most 1 and is 0 whenever the new
`previousTrainStatusRef` value is `true`. -/
theorem exitDecision_no_fire (st : DetectionState) (detected : Bool)
    (sp : JSNum) (resolved : Option String)
    (_h1 : st.lowSpeedCount ≤ 1)
    (h2 : st.prevTrainStatus = true → st.lowSpeedCount = 0) :
    (exitDecision st detected sp resolved).2.2.2 = false
    ∧ (exitDecision st detected sp resolved).2.2.1 ≤ 1
    ∧ (detected = true → (exitDecision st detected sp resolved).2.2.1 = 0) := by
  cases hp : st.prevTrainStatus with
  | false => simp [exitDecision, hp]
  | true =>
    have hc0 : st.lowSpeedCount = 0 := h2 hp
    cases hd : detected with
    | false =>
      cases hs : sp.ltQ 15 with
      | false => simp [exitDecision, hp, hd, hs]
      | true => simp [exitDecision, hp, hd, hs, hc0]
    | true => simp [exitDecision, hp, hd]

/-- One classifier step never fires `onTrainExit` from an invariant
state, and preserves the invariant. -/
theorem step_no_exit (isDev : Bool) (d : ℚ → ℚ → ℚ → ℚ → ℚ)
    (st : DetectionState) (f : Fix) (h : exitCounterInv st) :
    (step isDev d st f).2 = false ∧ exitCounterInv (step isDev d st f).1 := by
  obtain ⟨h1, h2⟩ := h
  have hh := exitDecision_no_fire st
    (isTrainDetected isDev st
      (computeSpeed (st.prevLocation.isSome && !(decide (st.lastUpdate = 0)))
        (match st.prevLocation with
         | some p => d p.1 p.2 f.lat f.lng
         | none => 0)
        ((f.timestamp - st.lastUpdate) / 1000) f.reportedSpeed f.rand)
      f.lat f.lng)
    (computeSpeed (st.prevLocation.isSome && !(decide (st.lastUpdate = 0)))
      (match st.prevLocation with
       | some p => d p.1 p.2 f.lat f.lng
       | none => 0)
      ((f.timestamp - st.lastUpdate) / 1000) f.reportedSpeed f.rand)
    (detectTrainLine f.lat f.lng) h1 h2
  exact ⟨hh.1, hh.2.1, hh.2.2⟩

/-- Running the classifier from an invariant state never fires the
exit callback on any fix. -/
theorem runTrace_no_exit (isDev : Bool) (d : ℚ → ℚ → ℚ → ℚ → ℚ) :
    ∀ (st : DetectionState) (fs : List Fix), exitCounterInv st →
      (runTrace isDev d st fs).all (fun r => !r.2) = true := by
  intro st fs
  induction fs generalizing st with
  | nil => intro _; rfl
  | cons f rest ih =>
    intro h
    obtain ⟨hfire, hinv⟩ := step_no_exit isDev d st f h
    simp only [runTrace, List.all_cons, hfire, Bool.not_false, Bool.true_and]
    exact ih _ hinv

/-- C1 (code bug): the claim describes the intended 3-sample exit
hysteresis, but because `previousTrainStatusRef.current` is overwritten
with `isTrainDetected` on every fix (part_001 line 432), the low-speed
counter can never reach the firing guard: from the initial state the
`onTrainExit` callback can never fire on any fix sequence, in either
mode.  On the spec §8 sequence producing speeds [10, 40, 50, 45, 8, 8,
8] km/h within a resolvable line's radius, boarding happens after the
second fix (the first with a computable delta) and `isOnTrain` is
silently dropped after the sixth fix — with no alight callback ever
fired — where the claim requires a single alight event at the seventh
fix. -/
theorem claim1_exit_callback_never_fires :
    (∀ (isDev : Bool) (d : ℚ → ℚ → ℚ → ℚ → ℚ) (t0 : ℚ) (fs : List Fix),
      (runTrace isDev d (initState t0) fs).all (fun r => !r.2) = true)
    ∧ (runTrace true specSpeedDist (initState 1) specSpeedFixes).map Prod.snd
        = [false, false, false, false, false, false, false]
    ∧ (runStates true specSpeedDist (initState 1) specSpeedFixes).map
        DetectionState.isOnTrain
        = [false, true, true, true, true, false, false] := by
  refine ⟨fun isDev d t0 fs =>
    runTrace_no_exit isDev d (initState t0) fs
      ⟨Nat.zero_le 1, fun _ => rfl⟩, ?_, ?_⟩ <;>
    norm_num [runStates, runTrace, specSpeedFixes, step, initState,
      computeSpeed, jsRawSpeed, specSpeedDist, isTrainDetected,
      exitDecision, detectTrainLine, findLine, trainLines, withinRadius,
      JSNum.gtQ, JSNum.ltQ, JSNum.geQ, JSNum.leQ]

/-- C2 (counterexample): a raw computed speed of exactly 200 km/h
(500 m in 9 s) is not clamped — the strict `rawSpeed > 200` guard at
part_001 line 322 lets it through — so the reported speed is the raw
200 km/h, far above the claimed 80 km/h ceiling. -/
theorem claim2_counterexample :
    computeSpeed true 500 9 none 0 = JSNum.num 200 ∧ ¬((200 : ℚ) ≤ 80) := by
  norm_num [computeSpeed, jsRawSpeed, JSNum.gtQ, JSNum.ltQ]

/-- C2 (amended): for a raw computed speed strictly above 200 km/h the
clamp substitutes `random * 40 + 40`, a value in the interval
[40, 80) — at least 40 and strictly below 80 km/h. -/
theorem claim2_clamp_above_200 (dist t r : ℚ) (rep : Option ℚ)
    (ht : 0 < t) (hraw : 200 < dist / t * 3.6)
    (hr0 : 0 ≤ r) (hr1 : r < 1) :
    computeSpeed true dist t rep r = JSNum.num (r * 40 + 40)
    ∧ 40 ≤ r * 40 + 40 ∧ r * 40 + 40 < 80 := by
  have htne : t ≠ 0 := ne_of_gt ht
  refine ⟨?_, by linarith, by linarith⟩
  simp [computeSpeed, jsRawSpeed, htne, JSNum.gtQ, hraw]

/-- Witness for C2's amended clamp at the concrete input 1000 m in 1 s
(raw 3600 km/h) with the random draw 1/2. -/
theorem claim2_clamp_above_200_witness :
    computeSpeed true 1000 1 none (1/2) = JSNum.num (1/2 * 40 + 40)
    ∧ (40 : ℚ) ≤ 1/2 * 40 + 40 ∧ (1/2 * 40 + 40 : ℚ) < 80 :=
  claim2_clamp_above_200 1000 1 (1/2) none (by norm_num) (by norm_num)
    (by norm_num) (by norm_num)

/-- C3 (counterexample): in production mode (part_001 line 380) the
verdict is only `calculatedSpeed > 20 && calculatedSpeed < 100`; a
first-ever fix with a self-reported speed of 15 m/s (54 km/h) at
coordinates no table entry covers makes `isOnTrain` true — boarding
with no prior fix and no resolvable line. -/
theorem claim3_counterexample :
    (initState 1).prevLocation = none
    ∧ detectTrainLine 0 0 = none
    ∧ (step false (fun _ _ _ _ => 0) (initState 1)
        ⟨0, 0, some 15, 1000, 0⟩).1.isOnTrain = true := by
  norm_num [initState, step, computeSpeed, isTrainDetected, exitDecision,
    detectTrainLine, findLine, trainLines, withinRadius,
    JSNum.gtQ, JSNum.ltQ]

/-- If the hysteresis branch leaves `isOnTrain` true although it was
false before, the verdict of this fix must have been `true`: every
branch except 通常の電車判定 carries the old `isOnTrain` forward or
clears it. -/
theorem exitDecision_fst_true (st : DetectionState) (detected : Bool)
    (sp : JSNum) (resolved : Option String)
    (h0 : st.isOnTrain = false)
    (h : (exitDecision st detected sp resolved).1 = true) : detected = true := by
  cases hd : detected with
  | true => rfl
  | false =>
    exfalso
    revert h
    unfold exitDecision
    cases hp : st.prevTrainStatus <;>
      cases hs : sp.ltQ 15 <;>
        by_cases hcnt : st.lowSpeedCount ≥ 2 <;>
          simp [hp, hd, hs, hcnt, h0]

/-- C3 (amended): in development mode, a step can turn `isOnTrain`
from false to true only when a prior fix exists, the computed speed
lies in [30, 120] km/h, and the Line Resolver returns a line for the
fix's coordinates — so in that mode the first-ever fix never boards
and a fix without a resolvable line never boards. -/
theorem claim3_entry_conditions (d : ℚ → ℚ → ℚ → ℚ → ℚ)
    (st : DetectionState) (f : Fix)
    (h0 : st.isOnTrain = false)
    (h1 : (step true d st f).1.isOnTrain = true) :
    st.prevLocation.isSome = true
    ∧ (step true d st f).1.speed.geQ 30 = true
    ∧ (step true d st f).1.speed.leQ 120 = true
    ∧ (detectTrainLine f.lat f.lng).isSome = true := by
  have h1' : (exitDecision st
      (isTrainDetected true st (step true d st f).1.speed f.lat f.lng)
      ((step true d st f).1.speed) (detectTrainLine f.lat f.lng)).1 = true := h1
  have hd := exitDecision_fst_true st _ _ _ h0 h1'
  simp only [isTrainDetected, if_true, Bool.and_eq_true] at hd
  exact ⟨hd.1.1.1, hd.1.1.2, hd.1.2, hd.2⟩

/-- Witness for C3's amended entry conditions: a second-fix state at
the JR山手線 reference point stepping on a 60 km/h fix. -/
theorem claim3_entry_conditions_witness :
    ((⟨false, none, .num 0, 0, false, some (35.6762, 139.6503), 1000⟩ :
        DetectionState).isOnTrain = false)
    ∧ ((step true (fun _ _ _ _ => 50/3)
        ⟨false, none, .num 0, 0, false, some (35.6762, 139.6503), 1000⟩
        ⟨35.6762, 139.6503, none, 2000, 0⟩).1.isOnTrain = true)
    ∧ ((⟨false, none, .num 0, 0, false, some (35.6762, 139.6503), 1000⟩ :
        DetectionState).prevLocation.isSome = true
      ∧ (step true (fun _ _ _ _ => 50/3)
          ⟨false, none, .num 0, 0, false, some (35.6762, 139.6503), 1000⟩
          ⟨35.6762, 139.6503, none, 2000, 0⟩).1.speed.geQ 30 = true
      ∧ (step true (fun _ _ _ _ => 50/3)
          ⟨false, none, .num 0, 0, false, some (35.6762, 139.6503), 1000⟩
          ⟨35.6762, 139.6503, none, 2000, 0⟩).1.speed.leQ 120 = true
      ∧ (detectTrainLine (35.6762 : ℚ) (139.6503 : ℚ)).isSome = true) :=
  ⟨rfl,
   by norm_num [step, computeSpeed, jsRawSpeed, isTrainDetected,
     exitDecision, detectTrainLine, findLine, trainLines, withinRadius,
     JSNum.gtQ, JSNum.ltQ, JSNum.geQ, JSNum.leQ],
   claim3_entry_conditions _ _ _ rfl
     (by norm_num [step, computeSpeed, jsRawSpeed, isTrainDetected,
       exitDecision, detectTrainLine, findLine, trainLines, withinRadius,
       JSNum.gtQ, JSNum.ltQ, JSNum.geQ, JSNum.leQ])⟩

/-- Within a run whose dependency tuple is constantly
`(true, some l)`, the boarding effect never re-fires: React skips an
effect whose dependencies did not change. -/
theorem triggersAux_no_retrigger (l : String) :
    ∀ ss : List DetectionState,
      (∀ s ∈ ss, s.isOnTrain = true ∧ s.currentLine = some l) →
      triggersAux (true, some l) ss = List.replicate ss.length false := by
  intro ss
  induction ss with
  | nil => intro _; rfl
  | cons s rest ih =>
    intro h
    obtain ⟨h1, h2⟩ := h s (List.mem_cons_self s rest)
    have hd : depsOf s = (true, some l) := by simp [depsOf, h1, h2]
    simp only [triggersAux, hd, List.length_cons, List.replicate_succ,
      List.cons.injEq]
    refine ⟨by simp, ih (fun x hx => h x (List.mem_cons_of_mem s hx))⟩

/-- C4 (amended): over any nonempty run of states in which `isOnTrain`
is continuously true and the resolved line is constant, entered from a
render whose dependency tuple had `isOnTrain = false`, the boarding
effect fires exactly once — at the run's first state.  (The
qualification "constant resolved line" is forced: a mid-run change of
`trainStatus.trainLine` re-fires the effect, see the
counterexample.) -/
theorem claim4_board_once_constant_line_run
    (d0 : Bool × Option String) (ss : List DetectionState) (l : String)
    (hstart : d0.1 = false) (hne : ss ≠ [])
    (hrun : ∀ s ∈ ss, s.isOnTrain = true ∧ s.currentLine = some l) :
    (triggersAux d0 ss).count true = 1 := by
  cases ss with
  | nil => exact absurd rfl hne
  | cons s rest =>
    obtain ⟨h1, h2⟩ := hrun s (List.mem_cons_self s rest)
    have hd : depsOf s = (true, some l) := by simp [depsOf, h1, h2]
    have hneq : depsOf s ≠ d0 := by
      rw [hd]
      intro hcon
      rw [← hcon] at hstart
      simp at hstart
    simp only [triggersAux, hd]
    rw [triggersAux_no_retrigger l rest
      (fun x hx => hrun x (List.mem_cons_of_mem s hx))]
    have hne2 : ((true, some l) : Bool × Option String) ≠ d0 := by
      intro hcon
      rw [← hcon] at hstart
      simp at hstart
    simp [hne2, h1, h2, List.count_cons, List.count_replicate]

/-- Witness for C4's amended statement: a one-state run at 60 km/h on
the JR山手線 entered from an idle render. -/
theorem claim4_board_once_constant_line_run_witness :
    ((false, none) : Bool × Option String).1 = false
    ∧ ([(⟨true, some "JR山手線", .num 60, 0, true, some (35.6762, 139.6503),
          2000⟩ : DetectionState)] ≠ [])
    ∧ (triggersAux (false, none)
        [⟨true, some "JR山手線", .num 60, 0, true, some (35.6762, 139.6503),
          2000⟩]).count true = 1 :=
  ⟨rfl, by simp,
   claim4_board_once_constant_line_run (false, none) _ "JR山手線" rfl
     (by simp) (by simp)⟩

/-- C4 (counterexample): under `steadySpeedDist` the three
`lineChangeFixes` produce one continuous in-vehicle run (fixes 2-3,
`isOnTrain` true throughout) in which the resolved line changes from
JR山手線 to JR中央線; the boarding effect fires at fix 2 *and* again at
fix 3 — twice within a single run, refuting "exactly once ...
regardless of how many further qualifying in-vehicle fixes occur". -/
theorem claim4_counterexample :
    (runStates true steadySpeedDist (initState 1) lineChangeFixes).map
        DetectionState.isOnTrain = [false, true, true]
    ∧ (runStates true steadySpeedDist (initState 1) lineChangeFixes).map
        DetectionState.currentLine
        = [none, some "JR山手線", some "JR中央線"]
    ∧ triggersAux (false, none)
        (runStates true steadySpeedDist (initState 1) lineChangeFixes)
        = [false, true, true] := by
  norm_num [runStates, runTrace, lineChangeFixes, step, initState,
    computeSpeed, jsRawSpeed, steadySpeedDist, isTrainDetected,
    exitDecision, detectTrainLine, findLine, trainLines, withinRadius,
    JSNum.gtQ, JSNum.ltQ, JSNum.geQ, JSNum.leQ, triggersAux, depsOf]
  decide

/-- C5 (amended): a fix identical to the previous one (same
coordinates, same timestamp, hence zero elapsed time and zero
haversine distance) throws no error, but the raw speed `0 / 0` is
`NaN`, not the previous speed: every range comparison on `NaN` is
false, so the fix is classified as not-a-train fix; while the rider
was on the train the fix leaves `isOnTrain` and `currentLine`
untouched (though it silently clears `previousTrainStatusRef` and
resets the low-speed counter), and otherwise it re-asserts the
off-train state. -/
theorem claim5_identical_fix_nan (d : ℚ → ℚ → ℚ → ℚ → ℚ)
    (st : DetectionState) (plat plng : ℚ) (rep : Option ℚ) (rnd : ℚ)
    (hloc : st.prevLocation = some (plat, plng))
    (ht : st.lastUpdate ≠ 0)
    (hd : d plat plng plat plng = 0) :
    (step true d st ⟨plat, plng, rep, st.lastUpdate, rnd⟩).1.speed = JSNum.nan
    ∧ (step true d st ⟨plat, plng, rep, st.lastUpdate, rnd⟩).2 = false
    ∧ (st.prevTrainStatus = true →
        (step true d st ⟨plat, plng, rep, st.lastUpdate, rnd⟩).1.isOnTrain
            = st.isOnTrain
        ∧ (step true d st ⟨plat, plng, rep, st.lastUpdate, rnd⟩).1.currentLine
            = st.currentLine)
    ∧ (st.prevTrainStatus = false →
        (step true d st ⟨plat, plng, rep, st.lastUpdate, rnd⟩).1.isOnTrain
            = false) := by
  have hsp : computeSpeed
      (st.prevLocation.isSome && !(decide (st.lastUpdate = 0)))
      (match st.prevLocation with
       | some p => d p.1 p.2 plat plng
       | none => 0)
      0 rep rnd = JSNum.nan := by
    rw [hloc]
    simp [computeSpeed, jsRawSpeed, ht, hd, JSNum.gtQ, JSNum.ltQ]
  cases hp : st.prevTrainStatus <;>
    simp [step, hsp, isTrainDetected, exitDecision, hp,
      JSNum.geQ, JSNum.ltQ]

/-- Witness for C5's amended statement: an on-train state at 60 km/h
receiving its own previous fix again. -/
theorem claim5_identical_fix_nan_witness :
    ((⟨true, some "JR山手線", .num 60, 0, true, some (35.6762, 139.6503),
        5000⟩ : DetectionState).prevLocation = some (35.6762, 139.6503))
    ∧ ((5000 : ℚ) ≠ 0)
    ∧ ((step true (fun _ _ _ _ => 0)
        ⟨true, some "JR山手線", .num 60, 0, true, some (35.6762, 139.6503),
          5000⟩
        ⟨35.6762, 139.6503, none, 5000, 0⟩).1.speed = JSNum.nan) := by
  refine ⟨rfl, by norm_num, ?_⟩
  have h := claim5_identical_fix_nan (fun _ _ _ _ => 0)
    ⟨true, some "JR山手線", .num 60, 0, true, some (35.6762, 139.6503), 5000⟩
    35.6762 139.6503 none 0 rfl (by norm_num) rfl
  exact h.1

/-- C5 (counterexample): the claim says an identical repeated fix is
treated as speed-unchanged with the previous state carried forward; in
fact the reported speed becomes `NaN` (≠ the previous 60 km/h) and
`previousTrainStatusRef` flips from true to false. -/
theorem claim5_counterexample :
    ((step true (fun _ _ _ _ => 0)
        ⟨true, some "JR山手線", .num 60, 0, true, some (35.6762, 139.6503),
          5000⟩
        ⟨35.6762, 139.6503, none, 5000, 0⟩).1.speed = JSNum.nan)
    ∧ (JSNum.nan ≠ JSNum.num 60)
    ∧ ((step true (fun _ _ _ _ => 0)
        ⟨true, some "JR山手線", .num 60, 0, true, some (35.6762, 139.6503),
          5000⟩
        ⟨35.6762, 139.6503, none, 5000, 0⟩).1.prevTrainStatus = false) := by
  refine ⟨?_, by simp, ?_⟩ <;>
    norm_num [step, computeSpeed, jsRawSpeed, isTrainDetected, exitDecision,
      detectTrainLine, findLine, trainLines, withinRadius,
      JSNum.gtQ, JSNum.ltQ, JSNum.geQ, JSNum.leQ]

/-! ## Association-list lemmas for the Coordinator maps -/

theorem alGet_alSet_self {α : Type} (l : List (String × α)) (k : String)
    (v : α) : alGet (alSet l k v) k = some v := by
  induction l with
  | nil => simp [alGet, alSet, List.find?]
  | cons p rest ih =>
    by_cases h : p.1 = k
    · simp [alSet, h, alGet, List.find?]
    · simp only [alSet, if_neg h]
      simpa [alGet, List.find?_cons, h] using ih

theorem mem_alSet {α : Type} {p : String × α} :
    ∀ {l : List (String × α)} {k : String} {v : α},
      p ∈ alSet l k v → p = (k, v) ∨ p ∈ l := by
  intro l
  induction l with
  | nil => intro k v h; simpa [alSet] using h
  | cons q rest ih =>
    intro k v h
    by_cases hq : q.1 = k
    · rw [alSet, if_pos hq] at h
      rcases List.mem_cons.mp h with h1 | h2
      · exact Or.inl h1
      · exact Or.inr (List.mem_cons_of_mem q h2)
    · rw [alSet, if_neg hq] at h
      rcases List.mem_cons.mp h with h1 | h2
      · exact Or.inr (h1 ▸ List.mem_cons_self q rest)
      · rcases ih h2 with h3 | h4
        · exact Or.inl h3
        · exact Or.inr (List.mem_cons_of_mem q h4)

theorem alSet_alSet {α : Type} (l : List (String × α)) (k : String)
    (v w : α) : alSet (alSet l k v) k w = alSet l k w := by
  induction l with
  | nil => simp [alSet]
  | cons p rest ih =>
    by_cases h : p.1 = k
    · simp [alSet, h]
    · simp [alSet, h, ih]

theorem alGet_alErase_self {α : Type} (l : List (String × α))
    (k : String) : alGet (alErase l k) k = none := by
  have hfind : List.find? (fun p => decide (p.1 = k)) (alErase l k) = none := by
    rw [List.find?_eq_none]
    intro p hp
    have := List.of_mem_filter hp
    simpa using this
  rw [alGet, hfind]
  rfl

theorem alSet_ne_nil {α : Type} (l : List (String × α)) (k : String)
    (v : α) : alSet l k v ≠ [] := by
  cases l with
  | nil => simp [alSet]
  | cons p rest =>
    by_cases h : p.1 = k <;> simp [alSet, h]

theorem alGet_some_ne_nil {α : Type} {l : List (String × α)} {k : String}
    {v : α} (h : alGet l k = some v) : l ≠ [] := by
  intro hcon
  rw [hcon] at h
  simp [alGet] at h

/-! ## Broadcast lemmas -/

/-- No emit of a broadcast ever targets the excluded socket. -/
theorem bcastList_countP_excluded (users : List (String × SUser))
    (ev : String) (data : Payload) (sid : String) :
    (bcastList users ev data (some sid)).countP (fun e => e.sid = sid) = 0 := by
  induction users with
  | nil => rfl
  | cons p rest ih =>
    simp only [bcastList, List.filterMap_cons] at ih ⊢
    by_cases h : sid = p.2.socketId
    · rw [if_pos (congrArg some h)]
      exact ih
    · have h2 : ¬p.2.socketId = sid := fun hc => h hc.symm
      rw [if_neg (fun hc => h (Option.some.inj hc)), List.countP_cons, ih]
      simp [h2]

/-- A broadcast excluding `sid` delivers to any other socket exactly as
many emits as that socket has member entries. -/
theorem bcastList_countP_other (users : List (String × SUser))
    (ev : String) (data : Payload) (sid sB : String) (hne : sB ≠ sid) :
    (bcastList users ev data (some sid)).countP (fun e => e.sid = sB)
      = users.countP (fun p => p.2.socketId = sB) := by
  induction users with
  | nil => rfl
  | cons p rest ih =>
    simp only [bcastList, List.filterMap_cons] at ih ⊢
    by_cases h : sid = p.2.socketId
    · have hpb : ¬p.2.socketId = sB := fun hc => hne (h.trans hc).symm
      rw [if_pos (congrArg some h), ih, List.countP_cons]
      simp [hpb]
    · rw [if_neg (fun hc => h (Option.some.inj hc)),
        List.countP_cons, List.countP_cons, ih]

/-- Every emit of a broadcast carries the given event name and
payload. -/
theorem mem_bcastList (users : List (String × SUser)) (ev : String)
    (data : Payload) (excl : Option String) (e : Emit)
    (h : e ∈ bcastList users ev data excl) :
    e.event = ev ∧ e.data = data := by
  induction users with
  | nil => simp [bcastList] at h
  | cons p rest ih =>
    rw [bcastList, List.filterMap_cons] at h
    by_cases hx : excl = some p.2.socketId
    · rw [if_pos hx] at h
      exact ih h
    · rw [if_neg hx] at h
      rcases List.mem_cons.mp h with h1 | h2
      · subst h1; exact ⟨rfl, rfl⟩
      · exact ih h2

/-! ## Coordinator claim theorems -/

/-- C7: in a room containing the sender and another member on a
different socket with exactly one member entry for that socket,
`sendMessage` succeeds, delivers exactly one `receiveMessage` emit to
the other member's socket and none to the sender's, and every emitted
payload is the message carrying the Coordinator-assigned id and
timestamp. -/
theorem claim7_message_fanout (st : ServerState)
    (roomId uA text msgId : String) (now : ℚ) (room : SRoom) (mA : SUser)
    (sB : String)
    (hroom : alGet st.rooms roomId = some room)
    (hmem : alGet room.users uA = some mA)
    (hsB : sB ≠ mA.socketId)
    (hone : room.users.countP (fun p => p.2.socketId = sB) = 1) :
    ∃ st' emits,
      sendMessageOp st uA roomId text msgId now = .ok (st', emits)
      ∧ emits.countP (fun e => e.sid = sB) = 1
      ∧ emits.countP (fun e => e.sid = mA.socketId) = 0
      ∧ ∀ e ∈ emits, e.event = "receiveMessage"
          ∧ e.data = .msg ⟨msgId, roomId, uA, mA.nickname, text, now⟩ := by
  simp only [sendMessageOp, hroom, hmem]
  refine ⟨_, _, rfl, ?_, ?_, ?_⟩
  · simp only [broadcastToRoom, alGet_alSet_self]
    exact (bcastList_countP_other _ _ _ _ _ hsB).trans hone
  · simp only [broadcastToRoom, alGet_alSet_self]
    exact bcastList_countP_excluded _ _ _ _
  · simp only [broadcastToRoom, alGet_alSet_self]
    exact fun e he => mem_bcastList _ _ _ _ e he

/-- Witness for C7: a two-member room, `alice` on socket c1 sending to
`bob` on socket c2. -/
theorem claim7_message_fanout_witness :
    ∃ st' emits,
      sendMessageOp
        ⟨[("r1", ⟨"r1", "JR山手線",
            [("u1", ⟨"u1", "c1", "alice", some "r1", 10⟩),
             ("u2", ⟨"u2", "c2", "bob", some "r1", 11⟩)], [], 10⟩)],
          [("c1", ⟨"u1", "c1", "alice", some "r1", 10⟩),
           ("c2", ⟨"u2", "c2", "bob", some "r1", 11⟩)]⟩
        "u1" "r1" "hello" "m1" 12 = .ok (st', emits)
      ∧ emits.countP (fun e => e.sid = "c2") = 1
      ∧ emits.countP (fun e => e.sid = ("c1" : String)) = 0
      ∧ ∀ e ∈ emits, e.event = "receiveMessage"
          ∧ e.data = .msg ⟨"m1", "r1", "u1", "alice", "hello", 12⟩ :=
  claim7_message_fanout _ "r1" "u1" "hello" "m1" 12
    ⟨"r1", "JR山手線",
      [("u1", ⟨"u1", "c1", "alice", some "r1", 10⟩),
       ("u2", ⟨"u2", "c2", "bob", some "r1", 11⟩)], [], 10⟩
    ⟨"u1", "c1", "alice", some "r1", 10⟩ "c2"
    (by simp [alGet, List.find?]) (by simp [alGet, List.find?])
    (by simp) (by simp [List.countP_cons])

/-! ## Empty-room eviction -/

/-- Leaving re-establishes the no-empty-room invariant: the left room
is either still populated or evicted by `deleteRoom` on the spot. -/
theorem leaveEffect_preserves (st : ServerState) (u rid : String)
    (h : noEmptyRooms st) : noEmptyRooms (leaveEffect st u rid).1 := by
  unfold leaveEffect
  split
  · exact h
  next room heq =>
    split
    · exact h
    next member hmem =>
      intro p hp
      have hp' : p ∈ deleteRoom
          (alSet st.rooms rid { room with users := alErase room.users u })
          rid := hp
      simp only [deleteRoom, alGet_alSet_self] at hp'
      by_cases hlen :
          ({ room with users := alErase room.users u } : SRoom).users.length = 0
      · rw [if_pos hlen] at hp'
        have h1 := List.of_mem_filter hp'
        have h0 := List.mem_of_mem_filter hp'
        rcases mem_alSet h0 with rfl | hmem2
        · simp at h1
        · exact h p hmem2
      · rw [if_neg hlen] at hp'
        rcases mem_alSet hp' with rfl | hmem2
        · intro hcon
          exact hlen (by simp only at hcon ⊢; rw [hcon]; rfl)
        · exact h p hmem2

/-- Joining a room leaves it with at least the joiner as a member and
touches no other room. -/
theorem joinCore_preserves (st : ServerState)
    (userId connId roomId lineLabel nickname : String) (now : ℚ)
    (h : noEmptyRooms st) :
    noEmptyRooms (joinCore st userId connId roomId lineLabel nickname now).1 := by
  cases ho : alGet st.rooms roomId with
  | some room =>
    simp only [joinCore, ho]
    intro p hp
    rcases mem_alSet hp with rfl | hm
    · exact fun hcon => alSet_ne_nil _ _ _ (by simpa using hcon)
    · exact h p hm
  | none =>
    simp only [joinCore, ho, createRoom]
    rw [alSet_alSet]
    intro p hp
    rcases mem_alSet hp with rfl | hm
    · exact fun hcon => alSet_ne_nil _ _ _ (by simpa using hcon)
    · exact h p hm

theorem joinOp_preserves (st : ServerState)
    (userId connId roomId lineLabel nickname : String) (now : ℚ)
    (h : noEmptyRooms st) :
    noEmptyRooms (joinOp st userId connId roomId lineLabel nickname now).1 := by
  have key : ∀ pre : ServerState × List Emit, noEmptyRooms pre.1 →
      noEmptyRooms (joinCore pre.1 userId connId roomId lineLabel
        nickname now).1 :=
    fun pre hp =>
      joinCore_preserves pre.1 userId connId roomId lineLabel nickname now hp
  refine key _ ?_
  cases (st.rooms.find? (fun p : String × SRoom =>
      decide (p.1 ≠ roomId) && (alGet p.2.users userId).isSome)).map
        Prod.fst with
  | some r => exact leaveEffect_preserves st userId r h
  | none => exact h

theorem sendMessageOp_preserves (st : ServerState)
    (u rid text msgId : String) (now : ℚ) (h : noEmptyRooms st) :
    ∀ r, sendMessageOp st u rid text msgId now = .ok r →
      noEmptyRooms r.1 := by
  unfold sendMessageOp
  split
  · intro r hr; cases hr
  next room hroom =>
    split
    · intro r hr; cases hr
    next member hmem =>
      intro r hr
      cases hr
      intro p hp
      rcases mem_alSet hp with rfl | hm
      · exact fun hcon => alGet_some_ne_nil hmem (by simpa using hcon)
      · exact h p hm

theorem disconnectOp_preserves (st : ServerState) (connId : String)
    (h : noEmptyRooms st) : noEmptyRooms (disconnectOp st connId).1 := by
  unfold disconnectOp
  split
  · exact h
  next u hu =>
    cases hrid : u.roomId with
    | some rid => exact fun p hp => leaveEffect_preserves st u.id rid h p hp
    | none => exact fun p hp => h p hp

theorem applyOp_preserves (st : ServerState) (op : Op)
    (h : noEmptyRooms st) : noEmptyRooms (applyOp st op).1 := by
  cases op with
  | join u c rid ll nn now => exact joinOp_preserves st u c rid ll nn now h
  | leave u rid => exact leaveEffect_preserves st u rid h
  | send u rid text msgId now =>
    have hgoal : applyOp st (.send u rid text msgId now)
        = match sendMessageOp st u rid text msgId now with
          | .ok r => r
          | .error _ => (st, []) := rfl
    rw [hgoal]
    cases hs : sendMessageOp st u rid text msgId now with
    | error e => exact h
    | ok r => exact sendMessageOp_preserves st u rid text msgId now h r hs
  | disconnect connId => exact disconnectOp_preserves st connId h

/-- C8: after every completed Coordinator operation, no room in the
rooms table has an empty member set (eviction is eager, performed
inside the operation itself); in particular a `join` of a fresh room
immediately followed by a `leave` of the same user leaves the rooms
table without that room. -/
theorem claim8_no_empty_rooms :
    (∀ (st : ServerState) (op : Op),
      noEmptyRooms st → noEmptyRooms (applyOp st op).1)
    ∧ (∀ (st : ServerState) (u c rid ll nn : String) (now : ℚ),
        alGet st.rooms rid = none →
        (∀ p ∈ st.rooms, alGet p.2.users u = none) →
        alGet (applyOp (applyOp st (.join u c rid ll nn now)).1
          (.leave u rid)).1.rooms rid = none) := by
  constructor
  · exact fun st op h => applyOp_preserves st op h
  · intro st u c rid ll nn now h1 h2
    have hfind : st.rooms.find? (fun p =>
        decide (p.1 ≠ rid) && (alGet p.2.users u).isSome) = none := by
      rw [List.find?_eq_none]
      intro p hp
      simp [h2 p hp]
    have hjoin : (joinOp st u c rid ll nn now).1.rooms
        = alSet st.rooms rid
            ⟨rid, ll, [(u, ⟨u, c, nn, some rid, now⟩)], [], now⟩ := by
      simp only [joinOp, joinCore, hfind, Option.map_none', h1,
        createRoom, alSet, alSet_alSet]
    have hget2 : alGet
        ([(u, (⟨u, c, nn, some rid, now⟩ : SUser))]) u
          = some ⟨u, c, nn, some rid, now⟩ := by
      simp [alGet, List.find?]
    have herase : alErase [(u, (⟨u, c, nn, some rid, now⟩ : SUser))] u = [] := by
      simp [alErase]
    simp only [applyOp, leaveEffect, hjoin, alGet_alSet_self, hget2,
      herase, deleteRoom, alSet_alSet, List.length_nil, if_pos rfl]
    exact alGet_alErase_self _ _

/-- Witness for C8: the invariant holds after a join on the empty
state, and join-then-leave of user u1 in fresh room r1 removes r1. -/
theorem claim8_no_empty_rooms_witness :
    noEmptyRooms (applyOp ⟨[], []⟩
      (.join "u1" "c1" "r1" "JR山手線" "alice" 10)).1
    ∧ alGet (applyOp (applyOp (⟨[], []⟩ : ServerState)
        (.join "u1" "c1" "r1" "JR山手線" "alice" 10)).1
        (.leave "u1" "r1")).1.rooms "r1" = none :=
  ⟨claim8_no_empty_rooms.1 ⟨[], []⟩ _ (by intro p hp; cases hp),
   claim8_no_empty_rooms.2 ⟨[], []⟩ "u1" "c1" "r1" "JR山手線" "alice" 10 rfl
     (by intro p hp; cases hp)⟩

/-- C9: a transport-level disconnect of a connection whose user is a
member of a room has exactly the leave effect on the rooms table and
produces the same notifications to the remaining members; when the
user was the sole member, the room is removed from the table. -/
theorem claim9_disconnect_equals_leave (st : ServerState)
    (connId : String) (u : SUser) (rid : String)
    (hu : alGet st.users connId = some u)
    (hrid : u.roomId = some rid) :
    (disconnectOp st connId).1.rooms = (leaveEffect st u.id rid).1.rooms
    ∧ (disconnectOp st connId).2 = (leaveEffect st u.id rid).2
    ∧ ∀ (room : SRoom) (m : SUser),
        alGet st.rooms rid = some room → room.users = [(u.id, m)] →
        alGet (disconnectOp st connId).1.rooms rid = none := by
  have hdis : disconnectOp st connId
      = ({ (leaveEffect st u.id rid).1 with
            users := alErase (leaveEffect st u.id rid).1.users connId },
         (leaveEffect st u.id rid).2) := by
    simp only [disconnectOp, hu, hrid]
  refine ⟨by rw [hdis], by rw [hdis], ?_⟩
  intro room m hroom husers
  rw [hdis]
  show alGet (leaveEffect st u.id rid).1.rooms rid = none
  have hget : alGet room.users u.id = some m := by
    rw [husers]
    simp [alGet, List.find?]
  have herase : alErase room.users u.id = [] := by
    rw [husers]
    simp [alErase]
  simp only [leaveEffect, hroom, hget, herase, deleteRoom,
    alGet_alSet_self, List.length_nil, if_pos rfl]
  exact alGet_alErase_self _ _

/-- Witness for C9: the sole member u1 of room r1, on socket c1,
disconnects; the rooms table and emits agree with a leave, and r1 is
gone. -/
theorem claim9_disconnect_equals_leave_witness :
    ((disconnectOp
        ⟨[("r1", ⟨"r1", "JR山手線",
            [("u1", ⟨"u1", "c1", "alice", some "r1", 5⟩)], [], 5⟩)],
          [("c1", ⟨"u1", "c1", "alice", some "r1", 5⟩)]⟩ "c1").1.rooms
      = (leaveEffect
        ⟨[("r1", ⟨"r1", "JR山手線",
            [("u1", ⟨"u1", "c1", "alice", some "r1", 5⟩)], [], 5⟩)],
          [("c1", ⟨"u1", "c1", "alice", some "r1", 5⟩)]⟩ "u1" "r1").1.rooms)
    ∧ alGet (disconnectOp
        ⟨[("r1", ⟨"r1", "JR山手線",
            [("u1", ⟨"u1", "c1", "alice", some "r1", 5⟩)], [], 5⟩)],
          [("c1", ⟨"u1", "c1", "alice", some "r1", 5⟩)]⟩ "c1").1.rooms
        "r1" = none := by
  have h := claim9_disconnect_equals_leave
    ⟨[("r1", ⟨"r1", "JR山手線",
        [("u1", ⟨"u1", "c1", "alice", some "r1", 5⟩)], [], 5⟩)],
      [("c1", ⟨"u1", "c1", "alice", some "r1", 5⟩)]⟩
    "c1" ⟨"u1", "c1", "alice", some "r1", 5⟩ "r1"
    (by simp [alGet, List.find?]) rfl
  exact ⟨h.1, h.2.2
    ⟨"r1", "JR山手線", [("u1", ⟨"u1", "c1", "alice", some "r1", 5⟩)], [], 5⟩
    ⟨"u1", "c1", "alice", some "r1", 5⟩
    (by simp [alGet, List.find?]) rfl⟩

/-- C10: `deleteRoom` removes the entry exactly when the room exists
with an empty user set; on a populated room or an unknown id it leaves
the rooms map unchanged — a benign no-op, never a deletion of a
populated room. -/
theorem claim10_deleteRoom_conditional (rooms : Rooms) (rid : String) :
    (alGet rooms rid = none → deleteRoom rooms rid = rooms)
    ∧ (∀ room, alGet rooms rid = some room → room.users ≠ [] →
        deleteRoom rooms rid = rooms)
    ∧ (∀ room, alGet rooms rid = some room → room.users = [] →
        deleteRoom rooms rid = alErase rooms rid
        ∧ alGet (deleteRoom rooms rid) rid = none) := by
  refine ⟨?_, ?_, ?_⟩
  · intro h
    simp only [deleteRoom, h]
  · intro room h hne
    simp only [deleteRoom, h]
    rw [if_neg (fun hc => hne (List.length_eq_zero.mp hc))]
  · intro room h he
    have hlen : room.users.length = 0 := by rw [he]; rfl
    have hd : deleteRoom rooms rid = alErase rooms rid := by
      simp only [deleteRoom, h]
      rw [if_pos hlen]
    exact ⟨hd, by rw [hd]; exact alGet_alErase_self rooms rid⟩

/-- Witness for C10: a populated room survives its own delete, an
unknown id is a no-op, and an empty room is removed. -/
theorem claim10_deleteRoom_conditional_witness :
    deleteRoom [("a", ⟨"a", "L", [("u", ⟨"u", "c", "nick", some "a", 0⟩)],
        [], 0⟩)] "a"
      = [("a", ⟨"a", "L", [("u", ⟨"u", "c", "nick", some "a", 0⟩)], [], 0⟩)]
    ∧ deleteRoom [("a", ⟨"a", "L", [("u", ⟨"u", "c", "nick", some "a", 0⟩)],
        [], 0⟩)] "zz"
      = [("a", ⟨"a", "L", [("u", ⟨"u", "c", "nick", some "a", 0⟩)], [], 0⟩)]
    ∧ alGet (deleteRoom [("b", ⟨"b", "L", [], [], 0⟩)] "b") "b" = none :=
  ⟨(claim10_deleteRoom_conditional _ "a").2.1
     ⟨"a", "L", [("u", ⟨"u", "c", "nick", some "a", 0⟩)], [], 0⟩
     (by simp [alGet, List.find?]) (by simp),
   (claim10_deleteRoom_conditional _ "zz").1 (by simp [alGet, List.find?]),
   ((claim10_deleteRoom_conditional _ "b").2.2 ⟨"b", "L", [], [], 0⟩
     (by simp [alGet, List.find?]) rfl).2⟩

end TrainChat
